import Mathlib

/-!
Verification of the QriBot forwarded-conversation analysis pipeline.

The definitions below are shallow embeddings of the Python sources:
`plugins/foward_analyse/__init__.py`, `plugins/foward_analyse/prompts.py`,
`plugins/foward_analyse/cmd_ana.py` and `plugins/justice/__init__.py`.
External collaborators (file system, YAML library, LLM client, renderer)
are modelled as explicit oracle parameters.
-/

/-! ## Forwarded-message trees (OneBot forward bundles)

A forward bundle node carries a sender nickname and a list of
sub-messages; a sub-message is a text segment, a nested forward
bundle (holding a list of nodes), or a segment of any other type. -/

mutual

inductive FMsg : Type where
  | text (t : String)
  | forward (content : List FNode)
  | other (ty : String)
  deriving Repr

inductive FNode : Type where
  | mk (sender : String) (message : List FMsg)
  deriving Repr

end

/-- Output entries of `messageToSimple`: the Python function appends either
a plain string or a three-element list `[sender, marker, nested]`. -/
inductive Entry : Type where
  | str (s : String)
  | group (sender marker : String) (nested : List Entry)
  deriving Repr

/-! ### The transcript flattener

Embeds `messageToSimple` from `plugins/foward_analyse/__init__.py`
(lines 449-460).  The outer loop walks the node list, reads the node's
sender nickname once, and the inner loop walks the sub-messages:
`"forward"` segments produce `[upperSender, "合并转发", recursive result]`,
`"text"` segments produce `"{upperSender}: {text}"`, and all other
segment types produce nothing. -/

mutual

def messageToSimple : List FNode → List Entry
  | [] => []
  | n :: rest => nodeEntries n ++ messageToSimple rest

def nodeEntries : FNode → List Entry
  | .mk sender msgs => msgEntries sender msgs

def msgEntries (sender : String) : List FMsg → List Entry
  | [] => []
  | m :: rest => msgEntry sender m ++ msgEntries sender rest

def msgEntry (sender : String) : FMsg → List Entry
  | .text t => [.str (sender ++ ": " ++ t)]
  | .forward c => [.group sender "合并转发" (messageToSimple c)]
  | .other _ => []

end

/-! ### Fuel-indexed evaluation of the flattener

`flattenFuel` models the runtime recursion of `messageToSimple`
step by step: every (mutually) recursive call burns one unit of fuel
and exhausted fuel yields `none`.  Termination of the Python function
on a finite tree is the statement that some finite fuel suffices. -/

mutual

def flattenFuel : Nat → List FNode → Option (List Entry)
  | 0, _ => none
  | _ + 1, [] => some []
  | f + 1, .mk sender msgs :: rest => do
      let a ← flattenMsgsFuel f sender msgs
      let b ← flattenFuel f rest
      pure (a ++ b)

def flattenMsgsFuel : Nat → String → List FMsg → Option (List Entry)
  | 0, _, _ => none
  | _ + 1, _, [] => some []
  | f + 1, sender, m :: rest => do
      let h ← (match m with
        | .text t => some [Entry.str (sender ++ ": " ++ t)]
        | .forward c => (flattenFuel f c).map (fun l => [Entry.group sender "合并转发" l])
        | .other _ => some ([] : List Entry))
      let t ← flattenMsgsFuel f sender rest
      pure (h ++ t)

end

/-! Structural sizes used to bound the fuel. -/

mutual

def sizeNodes : List FNode → Nat
  | [] => 0
  | n :: rest => sizeNode n + sizeNodes rest + 1

def sizeNode : FNode → Nat
  | .mk _ msgs => sizeMsgs msgs + 1

def sizeMsgs : List FMsg → Nat
  | [] => 0
  | m :: rest => sizeMsg m + sizeMsgs rest + 1

def sizeMsg : FMsg → Nat
  | .text _ => 0
  | .forward c => sizeNodes c + 1
  | .other _ => 0

end

/-- The nested Alice/Bob example: outer sender "Alice" with a text leaf
"hi" and a nested bundle from "Bob" containing text leaf "yo". -/
def exAliceBob : List FNode :=
  [.mk "Alice" [.text "hi", .forward [.mk "Bob" [.text "yo"]]]]

/-- Projection used to observe the marker string of the second entry. -/
def markerAt1 : List Entry → Option String
  | _ :: .group _ m _ :: _ => some m
  | _ => none

theorem messageToSimple_flatMap (nodes : List FNode) :
    messageToSimple nodes = nodes.flatMap (fun n =>
      match n with
      | .mk sender msgs => msgs.flatMap (fun m =>
          match m with
          | .text t => [Entry.str (sender ++ ": " ++ t)]
          | .forward c => [Entry.group sender "合并转发" (messageToSimple c)]
          | .other _ => []) ) := by
  induction nodes with
  | nil => rfl
  | cons n rest ih =>
      cases n with
      | mk sender msgs =>
          have inner : ∀ ms : List FMsg, msgEntries sender ms = ms.flatMap (fun m =>
              match m with
              | .text t => [Entry.str (sender ++ ": " ++ t)]
              | .forward c => [Entry.group sender "合并转发" (messageToSimple c)]
              | .other _ => []) := by
            intro ms
            induction ms with
            | nil => rfl
            | cons m ms ih2 =>
                cases m <;> simp [msgEntries, msgEntry, List.flatMap_cons, ih2]
          simp [messageToSimple, nodeEntries, List.flatMap_cons, ih, inner]

/-! ### Claim C1: per-bundle flattening behaviour -/

/-- C1 counterexample: flattening the Alice/Bob two-level example does NOT
yield `["Alice: hi", ["Alice", "forwarded", ["Bob: yo"]]]` — the code's
marker for a nested bundle is the literal string "合并转发", not
"forwarded". -/
theorem c1_flattener_counterexample :
    messageToSimple exAliceBob ≠
      [Entry.str "Alice: hi",
       Entry.group "Alice" "forwarded" [Entry.str "Bob: yo"]] := by
  intro h
  have h2 := congrArg markerAt1 h
  simp [exAliceBob, messageToSimple, nodeEntries, msgEntries, msgEntry,
    markerAt1] at h2

/-- C1 (amended): the flattener reads each top-level bundle's sender label
once and applies it to every sub-message of that bundle; a text
sub-message emits `"{sender}: {text}"`, a nested forwarded sub-message
emits the three-element grouping `[sender, "合并转发", nested_result]`
(preserving nesting structurally), and sub-messages of any other type
emit nothing; flattening the Alice/Bob example yields
`["Alice: hi", ["Alice", "合并转发", ["Bob: yo"]]]`. -/
theorem c1_flattener_amended :
    (∀ nodes : List FNode, messageToSimple nodes = nodes.flatMap (fun n =>
      match n with
      | .mk sender msgs => msgs.flatMap (fun m =>
          match m with
          | .text t => [Entry.str (sender ++ ": " ++ t)]
          | .forward c => [Entry.group sender "合并转发" (messageToSimple c)]
          | .other _ => []) )) ∧
    messageToSimple exAliceBob =
      [Entry.str "Alice: hi",
       Entry.group "Alice" "合并转发" [Entry.str "Bob: yo"]] := by
  constructor
  · exact messageToSimple_flatMap
  · rfl

/-! ### Claim C10: termination of the flattener -/

theorem flattenFuel_complete : ∀ f : Nat,
    (∀ nodes : List FNode, sizeNodes nodes < f →
      flattenFuel f nodes = some (messageToSimple nodes)) ∧
    (∀ (sender : String) (msgs : List FMsg), sizeMsgs msgs < f →
      flattenMsgsFuel f sender msgs = some (msgEntries sender msgs)) := by
  intro f
  induction f with
  | zero => exact ⟨fun _ h => absurd h (Nat.not_lt_zero _), fun _ _ h => absurd h (Nat.not_lt_zero _)⟩
  | succ f ih =>
      refine ⟨?_, ?_⟩
      · intro nodes hlt
        cases nodes with
        | nil => rfl
        | cons n rest =>
            cases n with
            | mk sender msgs =>
                have h1 : sizeMsgs msgs < f := by
                  simp [sizeNodes, sizeNode] at hlt; omega
                have h2 : sizeNodes rest < f := by
                  simp [sizeNodes, sizeNode] at hlt; omega
                simp [flattenFuel, ih.2 sender msgs h1, ih.1 rest h2,
                  messageToSimple, nodeEntries]
      · intro sender msgs hlt
        cases msgs with
        | nil => rfl
        | cons m rest =>
            have h2 : sizeMsgs rest < f := by
              simp [sizeMsgs] at hlt; omega
            cases m with
            | text t =>
                simp [flattenMsgsFuel, ih.2 sender rest h2, msgEntries, msgEntry]
            | forward c =>
                have h1 : sizeNodes c < f := by
                  simp [sizeMsgs, sizeMsg] at hlt; omega
                simp [flattenMsgsFuel, ih.1 c h1, ih.2 sender rest h2,
                  msgEntries, msgEntry]
            | other ty =>
                simp [flattenMsgsFuel, ih.2 sender rest h2, msgEntries, msgEntry]

/-- C10: the transcript flattener terminates on every finite input — for
every finite tree of forwarded bundles there is a finite amount of fuel
beyond which the step-indexed evaluation `flattenFuel` completes and
returns the (total) `messageToSimple` result, regardless of nesting
depth. -/
theorem c10_flattener_termination (nodes : List FNode) :
    ∃ f : Nat, ∀ g : Nat, f ≤ g →
      flattenFuel g nodes = some (messageToSimple nodes) := by
  refine ⟨sizeNodes nodes + 1, fun g hg => ?_⟩
  exact (flattenFuel_complete g).1 nodes (Nat.lt_of_lt_of_le (Nat.lt_succ_self _) hg)

/-! ## Front-matter parser

Embeds `parse_yaml_front_matter` from
`plugins/foward_analyse/prompts.py` (lines 45-67).  The Python code
anchors the regex `^---\s*\n(.*?)\n---\s*\n(.*)$` (DOTALL) at the start
of the file content; on a match it runs `yaml.safe_load` on group 1 and
returns `(front_matter, group 2)`; with no match it returns
`(None, content)`; any exception (unreadable file, malformed YAML)
yields `(None, "")`.  The regex is modelled by an explicit backtracking
matcher with Python's priority order: greedy `\s*` tries longest first,
the lazy group `(.*?)` tries shortest first. -/

/-- Whitespace class of the regex `\s` (ASCII part). -/
def isSpace (c : Char) : Bool :=
  c = ' ' || c = '\t' || c = '\n' || c = '\r' || c = Char.ofNat 11 || c = Char.ofNat 12

/-- Match `\s*\n` against a prefix of the input with greedy `\s*`
(longest first), returning the remainder after the `\n`. -/
def wsNl : List Char → Option (List Char)
  | [] => none
  | c :: rest =>
    if isSpace c then
      match wsNl rest with
      | some r => some r
      | none => if c = '\n' then some rest else none
    else none

/-- Match `(.*?)\n---\s*\n` with a lazy group (shortest first),
returning the captured group and the remainder.  A candidate closing
delimiter whose trailing `\s*\n` fails makes the lazy group grow by one
character, exactly as the regex engine backtracks. -/
def findClose : List Char → Option (List Char × List Char)
  | [] => none
  | c :: rest =>
    if c = '\n' && ['-', '-', '-'].isPrefixOf rest then
      match wsNl (rest.drop 3) with
      | some r => some ([], r)
      | none =>
        match findClose rest with
        | some (g, r) => some (c :: g, r)
        | none => none
    else
      match findClose rest with
      | some (g, r) => some (c :: g, r)
      | none => none

/-- Match `\s*\n(.*?)\n---\s*\n` after the opening `---`, with the
greedy `\s*` backtracking against the rest of the pattern. -/
def fmScan : List Char → Option (List Char × List Char)
  | [] => none
  | c :: rest =>
    if isSpace c then
      match fmScan rest with
      | some g => some g
      | none => if c = '\n' then findClose rest else none
    else none

/-- The full anchored regex `^---\s*\n(.*?)\n---\s*\n(.*)$` (DOTALL):
group 2 is everything after the closing delimiter line. -/
def fmMatch (s : List Char) : Option (List Char × List Char) :=
  if ['-', '-', '-'].isPrefixOf s then fmScan (s.drop 3) else none

/-- Values produced by `yaml.safe_load`, as far as the code inspects
them: strings, lists, string-keyed mappings, and anything else. -/
inductive Yaml : Type where
  | strVal (s : String)
  | listVal (xs : List Yaml)
  | dictVal (kvs : List (String × Yaml))
  | otherVal

/-- A YAML loader: `.ok v` models `yaml.safe_load` returning `v`
(possibly `None`, modelled as `.ok none`), `.error` models it raising. -/
def YamlLoader := String → Except Unit (Option Yaml)

/-- Pure core of `parse_yaml_front_matter`, applied to the document
text that was read from the file. -/
def parseFrontMatterText (safeLoad : YamlLoader) (content : String) :
    Option Yaml × String :=
  match fmMatch content.data with
  | some (y, md) =>
      match safeLoad (String.mk y) with
      | .ok fm => (fm, String.mk md)
      | .error _ => (none, "")
  | none => (none, content)

/-- A file system: `.ok` is the file's text, `.error` a read failure
(the exception message). -/
def FileSys := String → Except String String

/-- `parse_yaml_front_matter(file_path)`: reads the file and parses it;
a read failure is swallowed by the `except` branch into `(None, "")`. -/
def parse_yaml_front_matter (readFile : FileSys) (safeLoad : YamlLoader)
    (path : String) : Option Yaml × String :=
  match readFile path with
  | .error _ => (none, "")
  | .ok content => parseFrontMatterText safeLoad content

/-! ### Well-formed front matter: supporting lemmas -/

/-- True when the list contains a position where the closing-delimiter
pattern `\n---` of the regex could fire. -/
def hasCloseSeq : List Char → Bool
  | [] => false
  | c :: rest => (c = '\n' && ['-', '-', '-'].isPrefixOf rest) || hasCloseSeq rest

lemma wsNl_seam (body : List Char)
    (hb : ∀ c, body.head? = some c → isSpace c = false) :
    wsNl ('\n' :: body) = some body := by
  have h1 : isSpace '\n' = true := by decide
  cases body with
  | nil => simp [wsNl, h1]
  | cons c rest =>
      have hc := hb c rfl
      simp [wsNl, h1, hc]

lemma prefix3_of_append (m b : List Char)
    (h : ['-', '-', '-'].isPrefixOf (m ++ '\n' :: '-' :: '-' :: '-' :: '\n' :: b) = true) :
    ['-', '-', '-'].isPrefixOf m = true := by
  match m with
  | [] => simp [List.isPrefixOf] at h
  | [a] => simp [List.isPrefixOf] at h
  | [a, a2] => simp [List.isPrefixOf] at h
  | a :: a2 :: a3 :: rest =>
      simp only [List.cons_append, List.isPrefixOf] at h ⊢
      simpa using h

lemma findClose_seam (meta body : List Char)
    (hc : hasCloseSeq meta = false)
    (hb : ∀ c, body.head? = some c → isSpace c = false) :
    findClose (meta ++ '\n' :: '-' :: '-' :: '-' :: '\n' :: body) = some (meta, body) := by
  induction meta with
  | nil =>
      have hpre : ['-', '-', '-'].isPrefixOf ('-' :: '-' :: '-' :: '\n' :: body) = true := by
        simp [List.isPrefixOf]
      simp [findClose, hpre, wsNl_seam body hb]
  | cons c rest ih =>
      simp only [hasCloseSeq, Bool.or_eq_false_iff, Bool.and_eq_false_iff] at hc
      have ih2 := ih hc.2
      by_cases hcond : (c = '\n' && ['-', '-', '-'].isPrefixOf
          (rest ++ '\n' :: '-' :: '-' :: '-' :: '\n' :: body)) = true
      · exfalso
        simp only [Bool.and_eq_true, decide_eq_true_eq] at hcond
        have h3 := prefix3_of_append rest body hcond.2
        rcases hc.1 with h | h
        · simp [hcond.1] at h
        · simp [h3] at h
      · have hcond' : (c = '\n' && ['-', '-', '-'].isPrefixOf
            (rest ++ '\n' :: '-' :: '-' :: '-' :: '\n' :: body)) = false :=
          Bool.eq_false_iff.mpr hcond
        simp only [List.cons_append, findClose, List.append_eq, hcond',
          Bool.false_eq_true, if_false, ih2]

lemma fmScan_seam (mc : Char) (mrest body : List Char)
    (hmc : isSpace mc = false)
    (hc : hasCloseSeq (mc :: mrest) = false)
    (hb : ∀ c, body.head? = some c → isSpace c = false) :
    fmScan ('\n' :: (mc :: mrest) ++ '\n' :: '-' :: '-' :: '-' :: '\n' :: body) =
      some (mc :: mrest, body) := by
  have hinner : fmScan (mc :: (mrest ++ '\n' :: '-' :: '-' :: '-' :: '\n' :: body)) = none := by
    simp [fmScan, hmc]
  have h1 : isSpace '\n' = true := by decide
  rw [fmScan.eq_def]
  simp [h1, hinner]
  have hf := findClose_seam (mc :: mrest) body hc hb
  simpa using hf

lemma fmMatch_wellFormed (mc : Char) (mrest body : List Char)
    (hmc : isSpace mc = false)
    (hc : hasCloseSeq (mc :: mrest) = false)
    (hb : ∀ c, body.head? = some c → isSpace c = false) :
    fmMatch ('-' :: '-' :: '-' :: '\n' :: (mc :: mrest) ++ '\n' :: '-' :: '-' :: '-' :: '\n' :: body) =
      some (mc :: mrest, body) := by
  have hpre : ['-', '-', '-'].isPrefixOf
      ('-' :: '-' :: '-' :: '\n' :: (mc :: mrest) ++ '\n' :: '-' :: '-' :: '-' :: '\n' :: body) = true := by
    simp [List.isPrefixOf]
  simp only [fmMatch, hpre, if_true, List.drop_succ_cons, List.drop_zero]
  exact fmScan_seam mc mrest body hmc hc hb

/-! ### Claim C2: the front-matter case contract -/

/-- C2: case contract of the front-matter parser.  If the document text
begins with a `---` delimiter line, a metadata block (nonempty, not
starting with whitespace, containing no closing-delimiter sequence) and
a matching closing `---` line, the parser returns (loaded metadata,
remainder body); if the metadata block fails to load it returns
(no metadata, empty body), discarding the body; if the delimiters are
absent or malformed (no regex match, in particular when the text does
not start with `---`) it returns (no metadata, original text). -/
theorem c2_front_matter_contract (safeLoad : YamlLoader) (content : String)
    (mc : Char) (mrest body : List Char)
    (hshape : content.data =
      '-' :: '-' :: '-' :: '\n' :: (mc :: mrest) ++ '\n' :: '-' :: '-' :: '-' :: '\n' :: body)
    (hmc : isSpace mc = false)
    (hc : hasCloseSeq (mc :: mrest) = false)
    (hb : ∀ c, body.head? = some c → isSpace c = false) :
    (∀ v, safeLoad (String.mk (mc :: mrest)) = .ok v →
        parseFrontMatterText safeLoad content = (v, String.mk body)) ∧
    (∀ e, safeLoad (String.mk (mc :: mrest)) = .error e →
        parseFrontMatterText safeLoad content = (none, "")) ∧
    (∀ doc : String, fmMatch doc.data = none →
        parseFrontMatterText safeLoad doc = (none, doc)) ∧
    (∀ doc : String, ['-', '-', '-'].isPrefixOf doc.data = false →
        parseFrontMatterText safeLoad doc = (none, doc)) := by
  have hm : fmMatch content.data = some (mc :: mrest, body) := by
    rw [hshape]; exact fmMatch_wellFormed mc mrest body hmc hc hb
  refine ⟨?_, ?_, ?_, ?_⟩
  · intro v hv
    simp [parseFrontMatterText, hm, hv]
  · intro e he
    simp [parseFrontMatterText, hm, he]
  · intro doc hdoc
    simp [parseFrontMatterText, hdoc]
  · intro doc hdoc
    have : fmMatch doc.data = none := by simp [fmMatch, hdoc]
    simp [parseFrontMatterText, this]

/-- Concrete YAML loader for the C2 witness: loads `"k: v"` as the
one-entry mapping and fails on everything else. -/
def exLoader : YamlLoader := fun s =>
  if s = "k: v" then .ok (some (.dictVal [("k", .strVal "v")])) else .error ()

theorem c2_front_matter_contract_witness :
    parseFrontMatterText exLoader "---\nk: v\n---\nB" =
      (some (.dictVal [("k", .strVal "v")]), "B") ∧
    parseFrontMatterText exLoader "# no front matter" = (none, "# no front matter") := by
  have h := c2_front_matter_contract exLoader "---\nk: v\n---\nB"
    'k' [':', ' ', 'v'] ['B'] rfl (by decide) (by decide)
    (by intro c hcx; cases hcx; decide)
  constructor
  · exact h.1 (some (.dictVal [("k", .strVal "v")])) rfl
  · exact h.2.2.2 "# no front matter" (by decide)

/-! ## Loading a prompt template body

Embeds `load_prompt_content` (`plugins/foward_analyse/prompts.py`
lines 124-134, identical nested definition in
`plugins/foward_analyse/__init__.py` lines 346-356): read the file;
strip the YAML front matter via `parse_yaml_front_matter`; return the
stripped body if it is non-empty (Python truthiness), otherwise the raw
content; if the initial read raises, return the hard-coded fallback
judge prompt. -/

def fallbackPrompt : String := "你是一个公正的裁判,请客观地评价对话内容。"

def load_prompt_content (readFile : FileSys) (safeLoad : YamlLoader)
    (path : String) : String :=
  match readFile path with
  | .error _ => fallbackPrompt
  | .ok content =>
      let md := (parse_yaml_front_matter readFile safeLoad path).2
      if md = "" then content else md

/-! ### Claim C7: fallback behaviour of template loading -/

/-- A document whose front matter is structurally well-formed but whose
YAML block the loader rejects. -/
def badYamlDoc : String := "---\nk: v\n---\nB"

/-- C7 counterexample: with a YAML loader that fails on the metadata
block, `load_prompt_content` returns the RAW DOCUMENT TEXT (front
matter included), not the hard-coded fallback prompt — so "on any read
or parse error it returns the fallback" is false for parse errors. -/
theorem c7_load_fallback_counterexample :
    load_prompt_content (fun _ => .ok badYamlDoc) (fun _ => .error ()) "p.md" =
      badYamlDoc ∧
    badYamlDoc ≠ fallbackPrompt ∧
    badYamlDoc ≠ "B" := by
  refine ⟨by decide, by decide, by decide⟩

/-- C7 (amended): `load_prompt_content` returns the front-matter-stripped
body when the parse succeeds with a non-empty body; when the parse step
yields an empty body (no remainder, or a YAML error swallowed inside
`parse_yaml_front_matter`) it returns the raw document text unchanged;
the hard-coded neutral fallback prompt is returned exactly when the
initial file read fails — so loading never propagates an error. -/
theorem c7_load_fallback_amended (readFile : FileSys) (safeLoad : YamlLoader)
    (path : String) :
    (∀ content, readFile path = .ok content →
      load_prompt_content readFile safeLoad path =
        (let md := (parseFrontMatterText safeLoad content).2
         if md = "" then content else md)) ∧
    (∀ e, readFile path = .error e →
      load_prompt_content readFile safeLoad path = fallbackPrompt) := by
  constructor
  · intro content hok
    simp [load_prompt_content, parse_yaml_front_matter, hok]
  · intro e herr
    simp [load_prompt_content, herr]

theorem c7_load_fallback_amended_witness :
    load_prompt_content (fun _ => .ok "---\nk: v\n---\nB") exLoader "p.md" = "B" ∧
    load_prompt_content (fun _ => .error "io error") exLoader "p.md" = fallbackPrompt := by
  constructor
  · have h := (c7_load_fallback_amended (fun _ => .ok "---\nk: v\n---\nB")
      exLoader "p.md").1 "---\nk: v\n---\nB" rfl
    rw [h]
    decide
  · exact (c7_load_fallback_amended (fun _ => .error "io error")
      exLoader "p.md").2 "io error" rfl

/-! ## Template registry

Embeds `load_prompt_aliases` from `plugins/foward_analyse/prompts.py`
(lines 70-108).  The Python code scans `prompts/*.md` sorted by path,
and for each file assigns into one shared dict: the full file name,
then the stem (name without the `.md` extension), then every string
element of a list-valued `alias` key of a non-empty front-matter
mapping.  Later assignments overwrite earlier ones. -/

/-- Python dict assignment `m[k] = v`: update the existing entry in
place, else append a new one. -/
def mapSet (m : List (String × String)) (k v : String) : List (String × String) :=
  if (m.map Prod.fst).contains k then
    m.map (fun p => if p.1 = k then (k, v) else p)
  else
    m ++ [(k, v)]

/-- Python dict lookup `m[k]` / `k in m`. -/
def mapLookup (k : String) : List (String × String) → Option String
  | [] => none
  | (k', v) :: rest => if k' = k then some v else mapLookup k rest

/-- String suffix test on the character lists (kernel-computable
version of `str.endswith(suf)`). -/
def strEndsWith (s suf : String) : Bool :=
  suf.data.reverse.isPrefixOf s.data.reverse

/-- `Path.stem` for the globbed `*.md` files. -/
def stemOf (n : String) : String :=
  if strEndsWith n ".md" then String.mk (n.data.take (n.data.length - 3)) else n

/-- Lexicographic code-point order on strings (Python `sorted` on the
globbed paths, which share the same directory prefix). -/
def charsLt : List Char → List Char → Bool
  | [], [] => false
  | [], _ :: _ => true
  | _ :: _, [] => false
  | a :: as, b :: bs => a < b || (a = b && charsLt as bs)

def strLt (a b : String) : Bool := charsLt a.data b.data

def insertSorted (x : String) : List String → List String
  | [] => [x]
  | y :: ys => if strLt x y then x :: y :: ys else y :: insertSorted x ys

def sortStr : List String → List String
  | [] => []
  | x :: xs => insertSorted x (sortStr xs)

/-- The alias strings a file contributes: front matter must be a truthy
(non-empty) mapping whose `alias` key holds a list; only string
elements are registered.  Any other shape contributes nothing (either
skipped by the `isinstance` checks or aborted by the per-file
exception handler after the name/stem were already registered). -/
def yamlAssoc (k : String) : List (String × Yaml) → Option Yaml
  | [] => none
  | (k', v) :: rest => if k' = k then some v else yamlAssoc k rest

def aliasStrings : Option Yaml → List String
  | some (.dictVal kvs) =>
      if kvs.isEmpty then []
      else
        match yamlAssoc "alias" kvs with
        | some (.listVal l) =>
            l.filterMap (fun y => match y with | .strVal s => some s | _ => none)
        | _ => []
  | _ => []

/-- The ordered key/value registrations a single file produces: full
name, stem, then each declared alias, all mapping to the file path. -/
def regEntriesOf (readFile : FileSys) (safeLoad : YamlLoader)
    (dir : String) (name : String) : List (String × String) :=
  let p := dir ++ "/" ++ name
  (name, p) :: (stemOf name, p) ::
    (aliasStrings (parse_yaml_front_matter readFile safeLoad p).1).map (fun a => (a, p))

/-- `load_prompt_aliases()`: an absent directory yields the empty map;
otherwise fold the per-file registrations over the sorted file names. -/
def load_prompt_aliases (readFile : FileSys) (safeLoad : YamlLoader)
    (dirExists : Bool) (dir : String) (names : List String) :
    List (String × String) :=
  if !dirExists then []
  else
    (sortStr names).foldl
      (fun m name => (regEntriesOf readFile safeLoad dir name).foldl
        (fun m2 kv => mapSet m2 kv.1 kv.2) m)
      []

lemma mapLookup_map_ne (k k' v : String) (m : List (String × String))
    (hne : k' ≠ k) :
    mapLookup k' (m.map (fun p => if p.1 = k then (k, v) else p)) = mapLookup k' m := by
  induction m with
  | nil => rfl
  | cons p rest ih =>
      simp only [List.map_cons]
      by_cases hp : p.1 = k
      · rw [if_pos hp]
        simp [mapLookup, hp, Ne.symm hne, ih]
      · rw [if_neg hp]
        simp [mapLookup, ih]

lemma mapLookup_map_hit (k v : String) (m : List (String × String))
    (hmem : (m.map Prod.fst).contains k = true) :
    mapLookup k (m.map (fun p => if p.1 = k then (k, v) else p)) = some v := by
  induction m with
  | nil => simp at hmem
  | cons p rest ih =>
      simp only [List.map_cons]
      by_cases hp : p.1 = k
      · rw [if_pos hp]
        simp [mapLookup]
      · rw [if_neg hp]
        have hrest : (rest.map Prod.fst).contains k = true := by
          simp only [List.map_cons, List.contains_cons] at hmem
          rcases Bool.or_eq_true_iff.mp hmem with h | h
          · exact absurd (beq_iff_eq.mp h).symm hp
          · exact h
        simp [mapLookup, hp, ih hrest]

lemma mapLookup_append (k : String) (m1 m2 : List (String × String)) :
    mapLookup k (m1 ++ m2) =
      (match mapLookup k m1 with
       | some v => some v
       | none => mapLookup k m2) := by
  induction m1 with
  | nil => simp [mapLookup]
  | cons p rest ih =>
      by_cases hp : p.1 = k
      · simp [mapLookup, hp]
      · simp [mapLookup, hp, ih]

lemma mapLookup_none_of_not_contains (k : String) (m : List (String × String))
    (h : (m.map Prod.fst).contains k = false) :
    mapLookup k m = none := by
  induction m with
  | nil => rfl
  | cons p rest ih =>
      simp only [List.map_cons, List.contains_cons, Bool.or_eq_false_iff] at h
      have hp : p.1 ≠ k := fun he => by simp [he] at h
      simp [mapLookup, hp, ih h.2]

lemma mapLookup_mapSet (m : List (String × String)) (k k' v : String) :
    mapLookup k' (mapSet m k v) = if k = k' then some v else mapLookup k' m := by
  unfold mapSet
  by_cases hmem : (m.map Prod.fst).contains k = true
  · rw [if_pos hmem]
    by_cases hk : k = k'
    · subst hk
      simp [mapLookup_map_hit k v m hmem]
    · simp [hk, mapLookup_map_ne k k' v m (Ne.symm hk)]
  · rw [if_neg hmem]
    have hnone := mapLookup_none_of_not_contains k m (Bool.eq_false_iff.mpr hmem)
    rw [mapLookup_append]
    by_cases hk : k = k'
    · subst hk
      simp [hnone, mapLookup]
    · simp only [hk, if_false]
      cases hlk : mapLookup k' m with
      | some w => simp
      | none => simp [mapLookup, hk]

lemma foldl_mapSet_lookup (L : List (String × String)) (m : List (String × String))
    (k : String) :
    mapLookup k (L.foldl (fun m2 kv => mapSet m2 kv.1 kv.2) m) =
      (match mapLookup k L.reverse with
       | some v => some v
       | none => mapLookup k m) := by
  induction L generalizing m with
  | nil => simp [mapLookup]
  | cons a L ih =>
      simp only [List.foldl_cons, List.reverse_cons]
      rw [ih, mapLookup_append]
      cases hrev : mapLookup k L.reverse with
      | some v => simp
      | none =>
          simp only []
          rw [mapLookup_mapSet]
          by_cases hk : a.1 = k
          · simp [mapLookup, hk]
          · simp [mapLookup, hk]

lemma foldl_foldl_flatMap (f : String → List (String × String))
    (names : List String) (m : List (String × String)) :
    names.foldl (fun m2 name => (f name).foldl (fun m3 kv => mapSet m3 kv.1 kv.2) m2) m =
      (names.flatMap f).foldl (fun m3 kv => mapSet m3 kv.1 kv.2) m := by
  induction names generalizing m with
  | nil => simp
  | cons n names ih =>
      simp only [List.foldl_cons, List.flatMap_cons, List.foldl_append]
      exact ih _

/-! ### Claim C3: registry refresh is last-writer-wins in sorted order -/

/-- File system for the C3 example: `a.md` and `b.md` both declare the
front-matter alias `x`. -/
def exRegFS : FileSys := fun p =>
  if p = "prompts/a.md" then .ok "---\nalias: [x]\n---\nA"
  else if p = "prompts/b.md" then .ok "---\nalias: [x]\n---\nB"
  else .error "missing"

/-- YAML loader for the C3 example. -/
def exRegLoader : YamlLoader := fun s =>
  if s = "alias: [x]" then .ok (some (.dictVal [("alias", .listVal [.strVal "x"])]))
  else .error ()

/-- C3: registry refresh folds the per-file registrations (full
filename, then stem, then each declared alias) over the directory's
files in sorted filename order, so a lookup returns the LAST
registration of that key in that sequence (`mapLookup` on the reversed
registration list); in particular with `a.md` and `b.md` both aliasing
`"x"`, the alias `"x"` resolves to `b.md` — last writer wins. -/
theorem c3_registry_last_writer_wins :
    (∀ (readFile : FileSys) (safeLoad : YamlLoader) (dir : String)
        (names : List String) (k : String),
      mapLookup k (load_prompt_aliases readFile safeLoad true dir names) =
        mapLookup k ((sortStr names).flatMap (regEntriesOf readFile safeLoad dir)).reverse) ∧
    mapLookup "x" (load_prompt_aliases exRegFS exRegLoader true "prompts" ["b.md", "a.md"]) =
      some "prompts/b.md" ∧
    mapLookup "a" (load_prompt_aliases exRegFS exRegLoader true "prompts" ["b.md", "a.md"]) =
      some "prompts/a.md" := by
  refine ⟨?_, by decide, by decide⟩
  intro readFile safeLoad dir names k
  unfold load_prompt_aliases
  simp only [Bool.not_true, Bool.false_eq_true, if_false]
  rw [foldl_foldl_flatMap, foldl_mapSet_lookup]
  cases mapLookup k ((sortStr names).flatMap (regEntriesOf readFile safeLoad dir)).reverse with
  | some v => rfl
  | none => rfl

/-! ## Access gate

Embeds `check_user_permission` from `plugins/foward_analyse/__init__.py`
(lines 147-156): for a private or group message event, if the
configured user-ID allow-list is empty the gate rejects; otherwise it
accepts exactly when the event's `user_id` is in the list.  Any other
event kind is rejected.  The plugin configuration
(`PluginConfig`, lines 27-48) defines only `ANA_USER_ID_ALLOW_LIST`;
no group/channel allow-list exists anywhere in the repository. -/

inductive Event : Type where
  | privateMsg (user_id : Int)
  | groupMsg (user_id group_id : Int)
  | nonMessage
  deriving DecidableEq, Repr

def check_user_permission (allowList : List Int) : Event → Bool
  | .privateMsg uid => if allowList = [] then false else allowList.contains uid
  | .groupMsg uid _ => if allowList = [] then false else allowList.contains uid
  | .nonMessage => false

inductive ChannelKind : Type where
  | direct
  | group
  deriving DecidableEq, Repr

/-- Modelled from the spec: the claimed access gate of §4.5
(`allow(requester_id, channel_kind, channel_id)`), which accepts iff
the requester is in the user allow-list, or — for a group channel —
the channel id is in a group allow-list.  No such group allow-list
exists in the code; this definition exists only to compare the claim
against `check_user_permission`. -/
def allowSpec (userAllow groupAllow : List Int) (requester : Int)
    (kind : ChannelKind) (channel : Int) : Bool :=
  userAllow.contains requester ||
    (match kind with
     | .group => groupAllow.contains channel
     | .direct => false)

/-! ### Claim C4: the access gate -/

/-- C4 counterexample: with an empty user allow-list and the group
allow-list `[42]` that the claim postulates, the claimed gate accepts
requester 7 in group channel 42, but the code's gate —
`check_user_permission`, which consults only the user allow-list and
ignores the channel entirely — rejects that same request. -/
theorem c4_access_gate_counterexample :
    check_user_permission [] (.groupMsg 7 42) = false ∧
    allowSpec [] [42] 7 .group 42 = true := by
  constructor <;> decide

/-- C4 (amended): the access gate accepts iff the event is a private or
group message whose `user_id` is in the configured user allow-list;
the channel kind and channel id are never consulted (there is no group
allow-list), non-message events are rejected, and an empty user
allow-list rejects every input. -/
theorem c4_access_gate_amended :
    (∀ (allowList : List Int) (uid : Int),
      check_user_permission allowList (.privateMsg uid) = allowList.contains uid) ∧
    (∀ (allowList : List Int) (uid gid : Int),
      check_user_permission allowList (.groupMsg uid gid) = allowList.contains uid) ∧
    (∀ allowList : List Int, check_user_permission allowList .nonMessage = false) ∧
    (∀ e : Event, check_user_permission [] e = false) := by
  refine ⟨?_, ?_, fun _ => rfl, ?_⟩
  · intro allowList uid
    cases allowList with
    | nil => simp [check_user_permission]
    | cons a rest => simp [check_user_permission]
  · intro allowList uid gid
    cases allowList with
    | nil => simp [check_user_permission]
    | cons a rest => simp [check_user_permission]
  · intro e
    cases e <;> simp [check_user_permission]

/-! ## The `ana` command orchestrator

Embeds `handle_ana_command` from `plugins/foward_analyse/__init__.py`
(lines 203-434) as a pure function from the request and the external
collaborators (oracles) to the ordered list of observable effects:
outbound sends, renderer invocations and the completion-API call. -/

/-- One outbound message segment (`MessageSegment`). -/
inductive Seg : Type where
  | reply (mid : Nat)
  | text (s : String)
  | image (pic : String)
  deriving DecidableEq, Repr

/-- Observable effects of one handler invocation, in order. -/
inductive Eff : Type where
  | send (m : List Seg)
  | render (md : String)
  | renderHtml (html : String)
  | llmCall (system user : String)
  | refresh
  deriving DecidableEq, Repr

/-- The external collaborators: file system, YAML library, markdown and
HTML renderers (`.error` = raised exception), completion API, JSON
serializer, and the `prompts/*.md` directory listing. -/
structure Oracles where
  readFile : FileSys
  safeLoad : YamlLoader
  fileExists : String → Bool
  md_to_pic : String → Except String String
  html_to_pic : String → Nat → Except String String
  llm : String → String → Except String String
  jsonDumps : List Entry → String
  promptFiles : List String

/-- First segment of the replied-to message, as the handler sees it:
its segment type string and (for `"forward"`) its nested content. -/
structure ReplySeg : Type where
  ty : String
  content : List FNode

/-- An inbound command event: message id, plain text, the optional
quoted message's segments, the parsed `--prompt=` override name
(group 1 of the regex search, when present), and the invocation
keyword `command[0]`. -/
structure Request : Type where
  message_id : Nat
  message_text : String
  reply : Option (List ReplySeg)
  overrideName : Option String
  trigger : String

/-- Substring test (Python `needle in hay`). -/
def listContains (needle : List Char) : List Char → Bool
  | [] => needle.isEmpty
  | c :: rest => needle.isPrefixOf (c :: rest) || listContains needle rest

def strContains (hay needle : String) : Bool := listContains needle.data hay.data

/-- `Path.name`: the last `/`-separated component. -/
def pathName (s : String) : String :=
  String.mk ((s.data.reverse.takeWhile (fun c => c != '/')).reverse)

/-- `SYSTEM_PROMPT_ANA_PATH` of `plugins/foward_analyse/__init__.py`
(line 60): the plugin's `prompts/alignment_prompt.md`. -/
def SYSTEM_PROMPT_ANA_PATH (pluginDir : String) : String :=
  pluginDir ++ "/prompts/alignment_prompt.md"

/-- The `triggers` table of `plugins/foward_analyse/__init__.py`
(lines 158-167): name, prompt file path, aliases. -/
def triggers (pluginDir : String) : List (String × String × List String) :=
  [("justice", SYSTEM_PROMPT_ANA_PATH pluginDir,
      ["蜻蜓队长", "正义", "天降正义", "裁判"]),
   ("ana", SYSTEM_PROMPT_ANA_PATH pluginDir,
      ["analyse", "分析", "怎么说", "如何评价"])]

/-- `build_command_to_prompt_map()`: each trigger key and each of its
aliases maps to the trigger's prompt file path. -/
def commandToPromptFilePath (pluginDir : String) : List (String × String) :=
  (triggers pluginDir).foldl
    (fun m t =>
      let m2 := mapSet m t.1 t.2.1
      t.2.2.foldl (fun m3 a => mapSet m3 a t.2.1) m2)
    []

/-- Resolution of the `--prompt=NAME` override (lines 310-324):
look the name up in the alias map; otherwise append `.md` when missing
and join it under the plugin's `prompts` directory. -/
def resolve_custom_prompt_path (aliasMap : List (String × String))
    (pluginDir : String) : Option String → Option String
  | none => none
  | some n =>
      match mapLookup n aliasMap with
      | some p => some p
      | none =>
          some (pluginDir ++ "/prompts/" ++ (if strEndsWith n ".md" then n else n ++ ".md"))

/-- Template selection (lines 336-344): the resolved override if it
names an existing file, else the trigger-table entry for the
invocation keyword, else the default `SYSTEM_PROMPT_ANA_PATH`. -/
def select_prompt_path (fileExists : String → Bool)
    (aliasMap : List (String × String)) (pluginDir : String)
    (overrideName : Option String) (trigger : String) : String :=
  let fallbackSel :=
    match mapLookup trigger (commandToPromptFilePath pluginDir) with
    | some q => q
    | none => SYSTEM_PROMPT_ANA_PATH pluginDir
  match resolve_custom_prompt_path aliasMap pluginDir overrideName with
  | some p => if fileExists p then p else fallbackSel
  | none => fallbackSel

/-- The input-validation predicate (lines 326-327): the request's
quoted message exists, has at least one segment, and its first segment
has type `"forward"`; when so, that segment's nested content. -/
def quotedContent (req : Request) : Option (List FNode) :=
  match req.reply with
  | some (s :: _) => if s.ty = "forward" then some s.content else none
  | _ => none

def usageMsg : String := "请回复一条合并转发的消息\n如果超过100条 可以嵌套合并转发"

def llmErrMsg : String := "调用 LLM 时发生错误!"

def previewText1 (fname : String) : String :=
  "LLM中, 请稍候\n(如果生成失败也会有回复)\n\n使用的系统提示词 (" ++ fname ++ "):\n"

def previewText2 (fname : String) : String :=
  "LLM中, 请稍候\n(如果生成失败也会有回复)\n使用prompt: " ++ fname

def joinSep (sep : String) : List String → String
  | [] => ""
  | [x] => x
  | x :: rest => x ++ sep ++ joinSep sep rest

def strTake (s : String) (n : Nat) : String := String.mk (s.data.take n)

/-- The `--prompts` branch (lines 225-270): refresh the alias registry,
then render the concatenation of all template files, falling back to a
truncated text listing when the image render fails. -/
def promptsBranch (o : Oracles) (pluginDir : String) (mid : Nat) : List Eff :=
  let names := sortStr o.promptFiles
  Eff.refresh ::
    (if names.isEmpty then
      [Eff.send [.reply mid, .text "未找到任何 prompt 文件"]]
    else
      let combined := names.map (fun n =>
        match o.readFile (pluginDir ++ "/prompts/" ++ n) with
        | .ok c => "# " ++ n ++ "\n\n" ++ c
        | .error e => "## " ++ n ++ "\n\n读取失败: " ++ e)
      let final_md := joinSep "\n\n---\n\n" combined
      match o.md_to_pic final_md with
      | .ok pic =>
          [Eff.render final_md,
           Eff.send [.reply mid,
             .text ("找到 " ++ toString names.length ++ " 个 prompt 文件:\n"),
             .image pic]]
      | .error _ =>
          [Eff.render final_md,
           Eff.send [.reply mid,
             .text ("找到 " ++ toString names.length ++
               " 个 prompt 文件，但生成图片失败\n\n" ++ strTake final_md 500 ++ "...")]])

/-- The `--test-html` branch (lines 273-307). -/
def testHtmlBranch (o : Oracles) (pluginDir : String) (mid : Nat) : List Eff :=
  let p := pluginDir ++ "/prompts/test.html"
  if !(o.fileExists p) then
    [Eff.send [.reply mid, .text "未找到 test.html 文件"]]
  else
    match o.readFile p with
    | .error e => [Eff.send [.reply mid, .text ("处理失败: " ++ e)]]
    | .ok html =>
        match o.html_to_pic html 1800 with
        | .error e =>
            [Eff.renderHtml html,
             Eff.send [.reply mid, .text ("生成图片失败: " ++ e)]]
        | .ok pic220 =>
            match o.html_to_pic html 800 with
            | .error e =>
                [Eff.renderHtml html, Eff.renderHtml html,
                 Eff.send [.reply mid, .text ("生成图片失败: " ++ e)]]
            | .ok pic96 =>
                [Eff.renderHtml html, Eff.renderHtml html,
                 Eff.send [.reply mid, .text "test.html 渲染结果:\n",
                   .image pic220, .image pic96]]

def selectedPathOf (o : Oracles) (pluginDir : String)
    (aliasMap : List (String × String)) (req : Request) : String :=
  select_prompt_path o.fileExists aliasMap pluginDir req.overrideName req.trigger

def systemPromptOf (o : Oracles) (pluginDir : String)
    (aliasMap : List (String × String)) (req : Request) : String :=
  load_prompt_content o.readFile o.safeLoad (selectedPathOf o pluginDir aliasMap req)

def promptNameOf (o : Oracles) (pluginDir : String)
    (aliasMap : List (String × String)) (req : Request) : String :=
  pathName (selectedPathOf o pluginDir aliasMap req)

/-- `json.dumps` of the flattened transcript — the user-turn content. -/
def userTextOf (o : Oracles) (content : List FNode) : String :=
  o.jsonDumps (messageToSimple content)

/-- The final plain-text reply sent when rendering the completion
result fails (lines 418-424). -/
def finalTextReply (mid : Nat) (r fname : String) : List Seg :=
  [.reply mid, .text r, .text ("\n(prompt: " ++ fname ++ ")")]

/-- The main flow after flag dispatch and input validation
(lines 333-430): select and load the template, send the preview
(image, or text on render failure), call the completion API on the
serialized transcript, and deliver the result (image, or raw text on
render failure; a fixed notice on API failure). -/
def mainFlow (o : Oracles) (pluginDir : String)
    (aliasMap : List (String × String)) (req : Request)
    (content : List FNode) : List Eff :=
  let sp := systemPromptOf o pluginDir aliasMap req
  let fname := promptNameOf o pluginDir aliasMap req
  let preview :=
    match o.md_to_pic sp with
    | .ok pic =>
        [Eff.render sp,
         Eff.send [.reply req.message_id, .text (previewText1 fname), .image pic]]
    | .error _ =>
        [Eff.render sp,
         Eff.send [.reply req.message_id, .text (previewText2 fname)]]
  let ut := userTextOf o content
  let rest :=
    match o.llm sp ut with
    | .ok r =>
        match o.md_to_pic r with
        | .ok pic =>
            [Eff.llmCall sp ut, Eff.render r,
             Eff.send [.reply req.message_id,
               .text ("\n使用prompt文件: " ++ fname ++ "\n"), .image pic]]
        | .error _ =>
            [Eff.llmCall sp ut, Eff.render r,
             Eff.send (finalTextReply req.message_id r fname)]
    | .error _ =>
        [Eff.llmCall sp ut, Eff.send [.reply req.message_id, .text llmErrMsg]]
  preview ++ rest

/-- The whole handler: flag dispatch (`--prompts`, `--test-html`),
input validation, then the main flow. -/
def handle_ana_command (o : Oracles) (pluginDir : String)
    (aliasMap : List (String × String)) (req : Request) : List Eff :=
  if strContains req.message_text "--prompts" then
    promptsBranch o pluginDir req.message_id
  else if strContains req.message_text "--test-html" then
    testHtmlBranch o pluginDir req.message_id
  else
    match quotedContent req with
    | none => [Eff.send [.reply req.message_id, .text usageMsg]]
    | some content => mainFlow o pluginDir aliasMap req content

/-- The messages sent by a trace, in order. -/
def sends (t : List Eff) : List (List Seg) :=
  t.filterMap (fun e => match e with | .send m => some m | _ => none)

def Eff.isLlm : Eff → Bool
  | .llmCall _ _ => true
  | _ => false

def Eff.isRenderEff : Eff → Bool
  | .render _ => true
  | .renderHtml _ => true
  | _ => false

def hasImageSeg (m : List Seg) : Bool :=
  m.any (fun s => match s with | .image _ => true | _ => false)

/-! ### Claim C5: template-selection precedence -/

/-- C5: template selection takes, in order of precedence: (a) the
resolved `--prompt=` override when it names an existing file; (b) the
invocation keyword's entry in the trigger table; (c) the fixed default
`SYSTEM_PROMPT_ANA_PATH`, without failing, when the keyword is
unmapped. -/
theorem c5_template_selection_precedence (fileExists : String → Bool)
    (aliasMap : List (String × String)) (pluginDir : String)
    (overrideName : Option String) (trigger : String) :
    (∀ p, resolve_custom_prompt_path aliasMap pluginDir overrideName = some p →
      fileExists p = true →
      select_prompt_path fileExists aliasMap pluginDir overrideName trigger = p) ∧
    (∀ q, (resolve_custom_prompt_path aliasMap pluginDir overrideName = none ∨
        (∃ p, resolve_custom_prompt_path aliasMap pluginDir overrideName = some p ∧
          fileExists p = false)) →
      mapLookup trigger (commandToPromptFilePath pluginDir) = some q →
      select_prompt_path fileExists aliasMap pluginDir overrideName trigger = q) ∧
    ((resolve_custom_prompt_path aliasMap pluginDir overrideName = none ∨
        (∃ p, resolve_custom_prompt_path aliasMap pluginDir overrideName = some p ∧
          fileExists p = false)) →
      mapLookup trigger (commandToPromptFilePath pluginDir) = none →
      select_prompt_path fileExists aliasMap pluginDir overrideName trigger =
        SYSTEM_PROMPT_ANA_PATH pluginDir) := by
  refine ⟨?_, ?_, ?_⟩
  · intro p hres hex
    simp [select_prompt_path, hres, hex]
  · intro q hover hmap
    rcases hover with h | ⟨p, hp, hnex⟩
    · simp [select_prompt_path, h, hmap]
    · simp [select_prompt_path, hp, hnex, hmap]
  · intro hover hmap
    rcases hover with h | ⟨p, hp, hnex⟩
    · simp [select_prompt_path, h, hmap]
    · simp [select_prompt_path, hp, hnex, hmap]

theorem c5_template_selection_precedence_witness :
    select_prompt_path (fun p => p = "PD/prompts/x.md")
      [("x", "PD/prompts/x.md")] "PD" (some "x") "justice" = "PD/prompts/x.md" ∧
    select_prompt_path (fun _ => false) [] "PD" none "justice" =
      "PD/prompts/alignment_prompt.md" ∧
    select_prompt_path (fun _ => false) [] "PD" none "unmapped-keyword" =
      SYSTEM_PROMPT_ANA_PATH "PD" := by
  refine ⟨?_, ?_, ?_⟩
  · exact (c5_template_selection_precedence (fun p => p = "PD/prompts/x.md")
      [("x", "PD/prompts/x.md")] "PD" (some "x") "justice").1
      "PD/prompts/x.md" (by decide) (by decide)
  · exact (c5_template_selection_precedence (fun _ => false) [] "PD" none "justice").2.1
      "PD/prompts/alignment_prompt.md" (Or.inl rfl) (by decide)
  · exact (c5_template_selection_precedence (fun _ => false) [] "PD" none
      "unmapped-keyword").2.2 (Or.inl rfl) (by decide)

/-! ### Claim C6: missing quoted forward yields one usage reply -/

/-- C6: an authorized request with no quoted forwarded bundle as its
first quoted segment (and neither short-circuiting flag in its text)
produces exactly one send — the fixed usage-hint reply — and the trace
contains no completion-API call and no renderer call. -/
theorem c6_usage_hint_reply (o : Oracles) (pluginDir : String)
    (aliasMap : List (String × String)) (req : Request)
    (h1 : strContains req.message_text "--prompts" = false)
    (h2 : strContains req.message_text "--test-html" = false)
    (h3 : quotedContent req = none) :
    handle_ana_command o pluginDir aliasMap req =
      [Eff.send [.reply req.message_id, .text usageMsg]] ∧
    sends (handle_ana_command o pluginDir aliasMap req) =
      [[Seg.reply req.message_id, Seg.text usageMsg]] ∧
    (handle_ana_command o pluginDir aliasMap req).countP Eff.isLlm = 0 ∧
    (handle_ana_command o pluginDir aliasMap req).countP Eff.isRenderEff = 0 := by
  have hmain : handle_ana_command o pluginDir aliasMap req =
      [Eff.send [.reply req.message_id, .text usageMsg]] := by
    simp [handle_ana_command, h1, h2, h3]
  refine ⟨hmain, ?_, ?_, ?_⟩ <;>
    simp [hmain, sends, List.countP, List.countP.go, Eff.isLlm, Eff.isRenderEff]

/-- Oracles with no external behaviour, for witnesses. -/
def trivialOracles : Oracles where
  readFile := fun _ => .error "no file"
  safeLoad := fun _ => .error ()
  fileExists := fun _ => false
  md_to_pic := fun _ => .error "render failed"
  html_to_pic := fun _ _ => .error "render failed"
  llm := fun _ _ => .error "llm failed"
  jsonDumps := fun _ => "[]"
  promptFiles := []

/-- A request quoting nothing at all. -/
def reqNoQuote : Request where
  message_id := 5
  message_text := "/ana"
  reply := none
  overrideName := none
  trigger := "ana"

theorem c6_usage_hint_reply_witness :
    handle_ana_command trivialOracles "PD" [] reqNoQuote =
      [Eff.send [.reply 5, .text usageMsg]] := by
  exact (c6_usage_hint_reply trivialOracles "PD" [] reqNoQuote
    (by decide) (by decide) rfl).1

/-! ### Claims C8 and C9: completion and render failure handling -/

lemma previewText2_ne_llmErrMsg (fname : String) : previewText2 fname ≠ llmErrMsg := by
  intro h
  have hlen := congrArg String.length h
  rw [previewText2, String.length_append] at hlen
  have h1 : ("LLM中, 请稍候\n(如果生成失败也会有回复)\n使用prompt: " : String).length = 34 := by
    decide
  have h2 : llmErrMsg.length = 13 := by decide
  rw [h1, h2] at hlen
  omega

/-- C9: when the completion-API call fails, the handler's trace is the
preview (render attempt plus one progress message), the completion
call, and exactly one further send — the fixed generic failure notice,
which carries no image segment and none of the request's content; the
failure never escapes the handler (the trace is fully defined). -/
theorem c9_llm_failure_reply (o : Oracles) (pluginDir : String)
    (aliasMap : List (String × String)) (req : Request)
    (content : List FNode) (err : String)
    (h1 : strContains req.message_text "--prompts" = false)
    (h2 : strContains req.message_text "--test-html" = false)
    (h3 : quotedContent req = some content)
    (hl : o.llm (systemPromptOf o pluginDir aliasMap req) (userTextOf o content) =
      .error err) :
    ∃ pm : List Seg,
      handle_ana_command o pluginDir aliasMap req =
        [Eff.render (systemPromptOf o pluginDir aliasMap req),
         Eff.send pm,
         Eff.llmCall (systemPromptOf o pluginDir aliasMap req) (userTextOf o content),
         Eff.send [Seg.reply req.message_id, Seg.text llmErrMsg]] ∧
      sends (handle_ana_command o pluginDir aliasMap req) =
        [pm, [Seg.reply req.message_id, Seg.text llmErrMsg]] ∧
      pm ≠ [Seg.reply req.message_id, Seg.text llmErrMsg] ∧
      (sends (handle_ana_command o pluginDir aliasMap req)).countP
        (fun m => m == [Seg.reply req.message_id, Seg.text llmErrMsg]) = 1 ∧
      hasImageSeg [Seg.reply req.message_id, Seg.text llmErrMsg] = false := by
  cases hpic : o.md_to_pic (systemPromptOf o pluginDir aliasMap req) with
  | ok pic =>
      refine ⟨[Seg.reply req.message_id,
        Seg.text (previewText1 (promptNameOf o pluginDir aliasMap req)), Seg.image pic],
        ?_, ?_, ?_, ?_, rfl⟩
      · simp [handle_ana_command, h1, h2, h3, mainFlow, hpic, hl]
      · simp [handle_ana_command, h1, h2, h3, mainFlow, hpic, hl, sends]
      · simp
      · have hne : ([Seg.reply req.message_id,
            Seg.text (previewText1 (promptNameOf o pluginDir aliasMap req)),
            Seg.image pic] ==
            [Seg.reply req.message_id, Seg.text llmErrMsg]) = false := by
          simp
        simp [handle_ana_command, h1, h2, h3, mainFlow, hpic, hl, sends,
          List.countP_cons, hne]
  | error e =>
      refine ⟨[Seg.reply req.message_id,
        Seg.text (previewText2 (promptNameOf o pluginDir aliasMap req))],
        ?_, ?_, ?_, ?_, rfl⟩
      · simp [handle_ana_command, h1, h2, h3, mainFlow, hpic, hl]
      · simp [handle_ana_command, h1, h2, h3, mainFlow, hpic, hl, sends]
      · simp [previewText2_ne_llmErrMsg (promptNameOf o pluginDir aliasMap req)]
      · have hne : ([Seg.reply req.message_id,
            Seg.text (previewText2 (promptNameOf o pluginDir aliasMap req))] ==
            [Seg.reply req.message_id, Seg.text llmErrMsg]) = false := by
          simp [previewText2_ne_llmErrMsg (promptNameOf o pluginDir aliasMap req)]
        simp [handle_ana_command, h1, h2, h3, mainFlow, hpic, hl, sends,
          List.countP_cons, hne]

/-- A request quoting a forwarded bundle (the Alice/Bob example). -/
def reqQuoted : Request where
  message_id := 7
  message_text := "/ana"
  reply := some [⟨"forward", exAliceBob⟩]
  overrideName := none
  trigger := "ana"

theorem c9_llm_failure_reply_witness :
    ∃ pm : List Seg,
      handle_ana_command trivialOracles "PD" [] reqQuoted =
        [Eff.render (systemPromptOf trivialOracles "PD" [] reqQuoted),
         Eff.send pm,
         Eff.llmCall (systemPromptOf trivialOracles "PD" [] reqQuoted)
           (userTextOf trivialOracles exAliceBob),
         Eff.send [Seg.reply 7, Seg.text llmErrMsg]] := by
  obtain ⟨pm, h⟩ := c9_llm_failure_reply trivialOracles "PD" [] reqQuoted
    exAliceBob "llm failed" (by decide) (by decide) rfl rfl
  exact ⟨pm, h.1⟩

/-- True when a message carries the string `r` as one of its text
segments. -/
def msgHasText (r : String) (m : List Seg) : Bool :=
  m.any (fun s => s == Seg.text r)

/-- C8: when the completion call succeeds with result `r` but rendering
`r` fails, the handler still attempts BOTH renders (the template-body
preview and the final answer) and ends with exactly one further send:
the plain-text reply carrying the full result `r` and no image
segment; and if the preview message did not happen to contain `r`,
that final reply is the unique sent message containing `r`. -/
theorem c8_render_failure_fallback (o : Oracles) (pluginDir : String)
    (aliasMap : List (String × String)) (req : Request)
    (content : List FNode) (r err : String)
    (h1 : strContains req.message_text "--prompts" = false)
    (h2 : strContains req.message_text "--test-html" = false)
    (h3 : quotedContent req = some content)
    (hl : o.llm (systemPromptOf o pluginDir aliasMap req) (userTextOf o content) = .ok r)
    (hr : o.md_to_pic r = .error err) :
    ∃ pm : List Seg,
      handle_ana_command o pluginDir aliasMap req =
        [Eff.render (systemPromptOf o pluginDir aliasMap req),
         Eff.send pm,
         Eff.llmCall (systemPromptOf o pluginDir aliasMap req) (userTextOf o content),
         Eff.render r,
         Eff.send (finalTextReply req.message_id r (promptNameOf o pluginDir aliasMap req))] ∧
      hasImageSeg (finalTextReply req.message_id r (promptNameOf o pluginDir aliasMap req)) =
        false ∧
      msgHasText r (finalTextReply req.message_id r (promptNameOf o pluginDir aliasMap req)) =
        true ∧
      (msgHasText r pm = false →
        (sends (handle_ana_command o pluginDir aliasMap req)).filter (msgHasText r) =
          [finalTextReply req.message_id r (promptNameOf o pluginDir aliasMap req)]) := by
  cases hpic : o.md_to_pic (systemPromptOf o pluginDir aliasMap req) with
  | ok pic =>
      refine ⟨[Seg.reply req.message_id,
        Seg.text (previewText1 (promptNameOf o pluginDir aliasMap req)), Seg.image pic],
        ?_, by simp [finalTextReply, hasImageSeg], by simp [msgHasText, finalTextReply], ?_⟩
      · simp [handle_ana_command, h1, h2, h3, mainFlow, hpic, hl, hr]
      · intro hpm
        have hfin : msgHasText r
            (finalTextReply req.message_id r (promptNameOf o pluginDir aliasMap req)) = true := by
          simp [msgHasText, finalTextReply]
        have hs : sends (handle_ana_command o pluginDir aliasMap req) =
            [[Seg.reply req.message_id,
              Seg.text (previewText1 (promptNameOf o pluginDir aliasMap req)), Seg.image pic],
             finalTextReply req.message_id r (promptNameOf o pluginDir aliasMap req)] := by
          simp [handle_ana_command, h1, h2, h3, mainFlow, hpic, hl, hr, sends, finalTextReply]
        rw [hs]
        simp only [List.filter_cons, List.filter_nil, hpm, hfin, if_true,
          Bool.false_eq_true, if_false]
  | error e =>
      refine ⟨[Seg.reply req.message_id,
        Seg.text (previewText2 (promptNameOf o pluginDir aliasMap req))],
        ?_, by simp [finalTextReply, hasImageSeg], by simp [msgHasText, finalTextReply], ?_⟩
      · simp [handle_ana_command, h1, h2, h3, mainFlow, hpic, hl, hr]
      · intro hpm
        have hfin : msgHasText r
            (finalTextReply req.message_id r (promptNameOf o pluginDir aliasMap req)) = true := by
          simp [msgHasText, finalTextReply]
        have hs : sends (handle_ana_command o pluginDir aliasMap req) =
            [[Seg.reply req.message_id,
              Seg.text (previewText2 (promptNameOf o pluginDir aliasMap req))],
             finalTextReply req.message_id r (promptNameOf o pluginDir aliasMap req)] := by
          simp [handle_ana_command, h1, h2, h3, mainFlow, hpic, hl, hr, sends, finalTextReply]
        rw [hs]
        simp only [List.filter_cons, List.filter_nil, hpm, hfin, if_true,
          Bool.false_eq_true, if_false]

/-- Oracles whose completion succeeds with "RESULT" while every render
fails. -/
def c8Oracles : Oracles :=
  { trivialOracles with
      llm := fun _ _ => .ok "RESULT"
      md_to_pic := fun _ => .error "boom" }

theorem c8_render_failure_fallback_witness :
    ∃ pm : List Seg,
      handle_ana_command c8Oracles "PD" [] reqQuoted =
        [Eff.render (systemPromptOf c8Oracles "PD" [] reqQuoted),
         Eff.send pm,
         Eff.llmCall (systemPromptOf c8Oracles "PD" [] reqQuoted)
           (userTextOf c8Oracles exAliceBob),
         Eff.render "RESULT",
         Eff.send (finalTextReply 7 "RESULT" (promptNameOf c8Oracles "PD" [] reqQuoted))] := by
  obtain ⟨pm, h⟩ := c8_render_failure_fallback c8Oracles "PD" [] reqQuoted
    exAliceBob "RESULT" "boom" (by decide) (by decide) rfl rfl rfl
  exact ⟨pm, h.1⟩
